import Mathlib

/-!
Shallow embedding of the semantic metrics engine (`src/semanticEngine.ts`).

Modelling conventions:
* JS runtime scalars are modelled by `Value`; JS numbers are rationals
  (`Rat`) plus an explicit `NaN` marker (`JsNum`).  Infinity and negative
  zero are outside the modelled domain (no claim exercises them).
* JS `undefined` is `Value.vUndefined`; reading an absent object key yields it.
* Objects whose key order matters (filter contexts, rows, registries,
  caches) are association lists in insertion order.
* Fallible code (`throw new Error(...)`) returns `Except String`.
* The unbounded recursion of `evaluateMetric` (the source performs no
  cycle detection) is modelled with an explicit `fuel` argument standing
  for the JS call stack.
-/

/-- JS number: a rational or NaN. -/
inductive JsNum where
  | nan : JsNum
  | val (q : Rat) : JsNum
deriving DecidableEq, Repr

/-- JS runtime scalar value (the value space of rows and filter primitives). -/
inductive Value where
  | vUndefined : Value
  | vNull : Value
  | vBool (b : Bool) : Value
  | vNum (q : Rat) : Value
  | vNaN : Value
  | vStr (s : String) : Value
deriving DecidableEq, Repr

namespace Value

/-- JS strict equality `===`: same type and same value; `NaN === NaN` is false. -/
def jsStrictEq : Value → Value → Bool
  | vUndefined, vUndefined => true
  | vNull, vNull => true
  | vBool a, vBool b => a == b
  | vNum a, vNum b => a == b
  | vStr a, vStr b => a == b
  | _, _ => false

/-- JS truthiness: `undefined`, `null`, `false`, `0`, `NaN` and `""` are falsy. -/
def jsTruthy : Value → Bool
  | vUndefined => false
  | vNull => false
  | vBool b => b
  | vNum q => q != 0
  | vNaN => false
  | vStr s => s != ""

/-- JS loose-null test `x == null`: true exactly for `null` and `undefined`. -/
def isLooseNull : Value → Bool
  | vNull => true
  | vUndefined => true
  | _ => false

end Value

/-- Digits of a decimal literal to a natural number. -/
def digitsToNat (cs : List Char) : Nat :=
  cs.foldl (fun a c => a * 10 + (c.toNat - 48)) 0

/-- JS `ToNumber` on a string: trimmed empty string is 0; otherwise an
optional sign followed by a decimal literal (`12`, `1.5`, `.5`, `5.`).
Exponents, hex literals and `Infinity` are outside the modelled domain
(no row value or claim uses them); anything else is NaN. -/
def jsStringToNumber (s : String) : JsNum :=
  let cs := s.trim.toList
  if cs = [] then .val 0 else
  let signed : Rat × List Char :=
    match cs with
    | '-' :: r => (-1, r)
    | '+' :: r => (1, r)
    | _ => (1, cs)
  let sign := signed.1
  let cs := signed.2
  let intPart := cs.takeWhile Char.isDigit
  let rest := cs.dropWhile Char.isDigit
  match rest with
  | [] => if intPart = [] then .nan else .val (sign * digitsToNat intPart)
  | '.' :: frac =>
    if frac.all Char.isDigit ∧ (intPart ≠ [] ∨ frac ≠ []) then
      .val (sign * ((digitsToNat intPart : Rat) +
        (digitsToNat frac : Rat) / ((10 : Rat) ^ frac.length)))
    else .nan
  | _ => .nan

/-- JS `ToNumber` (`Number(x)`) on a scalar value. -/
def jsToNumber : Value → JsNum
  | .vUndefined => .nan
  | .vNull => .val 0
  | .vBool b => .val (if b then 1 else 0)
  | .vNum q => .val q
  | .vNaN => .nan
  | .vStr s => jsStringToNumber s

namespace JsNum

def add (a : JsNum) (b : JsNum) : JsNum :=
  match a, b with
  | .val x, .val y => .val (x + y)
  | _, _ => .nan

def addConst (a : JsNum) (d : Rat) : JsNum :=
  match a with
  | .val x => .val (x + d)
  | .nan => .nan

/-- JS division; division by zero yields Infinity in JS, which is outside
the modelled domain — every use in the source is guarded by a truthiness
check on the divisor, so the `nan` fallback is unreachable there. -/
def div (a : JsNum) (b : JsNum) : JsNum :=
  match a, b with
  | .val x, .val y => if y = 0 then .nan else .val (x / y)
  | _, _ => .nan

def mulConst (a : JsNum) (d : Rat) : JsNum :=
  match a with
  | .val x => .val (x * d)
  | .nan => .nan

/-- JS truthiness of a number: `0` and `NaN` are falsy. -/
def truthy : JsNum → Bool
  | .nan => false
  | .val q => q != 0

/-- Back to a runtime value (`Number(x)` always yields a number). -/
def toValue : JsNum → Value
  | .nan => .vNaN
  | .val q => .vNum q

end JsNum

/-- JS abstract relational `<`: string/string compares lexicographically,
otherwise both sides go through `ToNumber` and any NaN makes it false. -/
def jsLt (a b : Value) : Bool :=
  match a, b with
  | .vStr s, .vStr t => decide (s < t)
  | _, _ =>
    match jsToNumber a, jsToNumber b with
    | .val x, .val y => decide (x < y)
    | _, _ => false

/-- JS `<=`: false when a NaN is involved, else the negation of the
swapped `<` (per the ECMAScript relational-comparison algorithm). -/
def jsLe (a b : Value) : Bool :=
  match a, b with
  | .vStr s, .vStr t => !decide (t < s)
  | _, _ =>
    match jsToNumber a, jsToNumber b with
    | .val x, .val y => decide (x ≤ y)
    | _, _ => false

/-- JS `>`. -/
def jsGt (a b : Value) : Bool := jsLt b a

/-- JS `>=`. -/
def jsGe (a b : Value) : Bool := jsLe b a

/-- `FilterRange` (semanticEngine.ts lines 20-27).  Each bound is
`Option Value`: the outer `none` means the key is absent from the object
(`"from" in f` is false), while `some v` stores the key's runtime value —
possibly `null`/`undefined`/`NaN`, which the source's `!= null` checks
distinguish from a real number.  `from` is a Lean keyword, hence `from'`. -/
structure FilterRange where
  from' : Option Value := none
  to' : Option Value := none
  gte : Option Value := none
  lte : Option Value := none
  gt : Option Value := none
  lt : Option Value := none
deriving DecidableEq, Repr

/-- `FilterValue = FilterPrimitive | FilterRange`; the primitive case also
covers runtime `null`/`undefined` entries, which the source checks for. -/
inductive FilterValue where
  | prim (v : Value) : FilterValue
  | range (r : FilterRange) : FilterValue
deriving DecidableEq, Repr

/-- A filter context: ordered key/filter bindings (JS object in insertion
order). -/
abbrev FilterContext := List (String × FilterValue)

/-- A row: ordered key/value bindings (JS object in insertion order). -/
abbrev Row := List (String × Value)

/-- JS property read `obj[key]`: absent keys read as `undefined`. -/
def getField (r : Row) (k : String) : Value :=
  match List.lookup k r with
  | some v => v
  | none => .vUndefined

/-- `ctx[key]` on a filter context: absent keys read as `undefined`. -/
def getCtxField (ctx : FilterContext) (k : String) : FilterValue :=
  match List.lookup k ctx with
  | some v => v
  | none => .prim .vUndefined

/-- `x == null` on a context entry (the source skips such filters). -/
def FilterValue.isLooseNull : FilterValue → Bool
  | .prim v => v.isLooseNull
  | .range _ => false

/-- `Number(x)` where `x` is a context entry; a plain (range) object
converts to NaN. -/
def FilterValue.toNumber : FilterValue → JsNum
  | .prim v => jsToNumber v
  | .range _ => .nan

/-- A range bound passes the source's `b != null` guard iff it is present
with a non-null, non-undefined value. -/
def boundVal (b : Option Value) : Option Value :=
  match b with
  | some v => if v.isLooseNull then none else some v
  | none => none

/-- `matchesFilter` (semanticEngine.ts lines 888-911), translated
branch-for-branch: an object filter with a `from` or `to` key is an
inclusive range (the other four bounds are not consulted); otherwise each
of `gte`/`lte`/`gt`/`lt` that is `!= null` is checked; a primitive filter
is strict equality.  (The `Array.isArray` escape hatch has no counterpart:
the modelled `FilterValue` has no array case.) -/
def matchesFilter (value : Value) (filter : FilterValue) : Bool :=
  match filter with
  | .range f =>
    if f.from'.isSome || f.to'.isSome then
      if (match boundVal f.from' with
          | some b => jsLt value b
          | none => false) then false
      else if (match boundVal f.to' with
          | some b => jsGt value b
          | none => false) then false
      else true
    else
      if (match boundVal f.gte with
          | some b => jsLt value b
          | none => false) then false
      else if (match boundVal f.lte with
          | some b => jsGt value b
          | none => false) then false
      else if (match boundVal f.gt with
          | some b => jsLe value b
          | none => false) then false
      else if (match boundVal f.lt with
          | some b => jsGe value b
          | none => false) then false
      else true
  | .prim p => value.jsStrictEq p

/-- `applyContextToFact` (semanticEngine.ts lines 917-932): fold the
context entries over the row sequence, skipping null/undefined filters and
keys outside the grain, narrowing by `matchesFilter` otherwise.  The lazy
`Enumerable` chain is modelled by an eager `List.filter` chain (same
elements in the same order). -/
def applyContextToFact (rows : List Row) (context : FilterContext)
    (grain : List String) : List Row :=
  context.foldl
    (fun query kv =>
      if kv.2.isLooseNull then query
      else if !grain.contains kv.1 then query
      else query.filter (fun r => matchesFilter (getField r kv.1) kv.2))
    rows

/-- `pick` (semanticEngine.ts lines 937-943): keep the listed keys, in the
order of `keys`, skipping keys whose value is `undefined`. -/
def pick (obj : Row) (keys : List String) : Row :=
  keys.foldl
    (fun out k =>
      if getField obj k = .vUndefined then out else out ++ [(k, getField obj k)])
    []

/-- Render a sign, a scale and a scaled magnitude as a decimal string
(`m` is the magnitude times `10 ^ d`). -/
def decimalString (neg : Bool) (m : Nat) (d : Nat) : String :=
  let intPart := m / 10 ^ d
  let frac := m % 10 ^ d
  let fs := toString frac
  let fs := String.mk (List.replicate (d - fs.length) '0') ++ fs
  (if neg then "-" else "") ++ toString intPart ++
    (if d = 0 then "" else "." ++ fs)

/-- JS `n.toFixed(d)`: round to `d` decimal places and pad.  Rounding is
to the nearest value with ties away from zero; JS resolves exact decimal
ties through the binary double representation instead, a corner no demo
value or claim reaches. -/
def toFixed (d : Nat) (q : Rat) : String :=
  let m : Nat := (Rat.floor (|q| * (10 : Rat) ^ d + 1/2)).toNat
  decimalString (decide (q < 0)) m d

/-- JS number-to-string (`String(n)` and `JSON.stringify` on a number):
integers print without a point, other finitely-representable rationals
with their shortest exact expansion.  Rationals with no finite decimal
expansion lie outside the JS double domain; they fall back to a
fraction rendering that no claim exercises. -/
def ratDecimalString (q : Rat) : String :=
  if q.den = 1 then toString q.num
  else
    match (List.range 40).find? (fun d => (q * (10 : Rat) ^ (d + 1)).den = 1) with
    | some d =>
      decimalString (decide (q < 0)) ((|q| * (10 : Rat) ^ (d + 1)).num.toNat) (d + 1)
    | none => toString q.num ++ "/" ++ toString q.den

/-- `JSON.stringify` of a scalar: `none` means the key is omitted
(`undefined`-valued properties are dropped); `NaN` serializes as `null`.
String content is assumed escape-free (true of every key and demo value). -/
def jsonValueString : Value → Option String
  | .vUndefined => none
  | .vNull => some "null"
  | .vNaN => some "null"
  | .vBool b => some (if b then "true" else "false")
  | .vNum q => some (ratDecimalString q)
  | .vStr s => some ("\"" ++ s ++ "\"")

/-- One serialized object entry, `"key":value`. -/
def jsonEntry (k : String) (v : String) : String :=
  "\"" ++ k ++ "\":" ++ v

/-- `JSON.stringify` of a range object.  The model normalizes a range
object's key order to the declaration order of `FilterRange`; real JS
objects serialize in insertion order, which coincides for every range the
source constructs. -/
def jsonRangeString (f : FilterRange) : String :=
  let fields : List (String × Option Value) :=
    [("from", f.from'), ("to", f.to'), ("gte", f.gte), ("lte", f.lte),
     ("gt", f.gt), ("lt", f.lt)]
  let entries := fields.filterMap
    (fun kv => match kv.2 with
      | some v => (jsonValueString v).map (jsonEntry kv.1)
      | none => none)
  "\x7b" ++ String.intercalate "," entries ++ "\x7d"

/-- `JSON.stringify` of a filter-context entry value. -/
def jsonFilterValueString : FilterValue → Option String
  | .prim v => jsonValueString v
  | .range f => some (jsonRangeString f)

/-- `JSON.stringify` of a filter context: entries in insertion order,
`undefined`-valued keys omitted. -/
def jsonStringify (ctx : FilterContext) : String :=
  let entries := ctx.filterMap
    (fun kv => (jsonFilterValueString kv.2).map (jsonEntry kv.1))
  "\x7b" ++ String.intercalate "," entries ++ "\x7d"

/-- `cacheKey` (semanticEngine.ts lines 950-952):
`metricName::JSON.stringify(context)`. -/
def cacheKey (metricName : String) (context : FilterContext) : String :=
  metricName ++ "::" ++ jsonStringify context

/-- Aggregation kinds of `MeasureDefinition`. -/
inductive Aggregation where
  | sum | avg | count | min | max | distinct
deriving DecidableEq, Repr

/-- `MeasureDefinition` (semanticEngine.ts lines 263-273). -/
structure MeasureDefinition where
  name : String
  table : String
  column : String
  aggregation : Aggregation
  format : Option String := none
  description : Option String := none
  expression : Option (List Row → Option JsNum) := none

abbrev MeasureRegistry := List (String × MeasureDefinition)

/-- `InMemoryDb` (semanticEngine.ts lines 232-234). -/
structure InMemoryDb where
  tables : List (String × List Row)

/-- Modelled from the spec: `sum` terminal reduction of the row-sequence
capability (`linq.js`, imported by the source but not under `src/`; §6,
§4.3): total of the projection, empty sequence sums to 0, NaN absorbs. -/
def seqSum (rows : List Row) (f : Row → JsNum) : JsNum :=
  rows.foldl (fun acc r => acc.add (f r)) (.val 0)

/-- Modelled from the spec: `count` terminal reduction (§6). -/
def seqCount (rows : List Row) : JsNum := .val rows.length

/-- Modelled from the spec: `average` terminal reduction (§6).  The
empty-sequence case is left open by the spec (§4.3, §9, "NaN-like
behavior in some paths"); modelled as NaN.  No claim exercises it. -/
def seqAvg (rows : List Row) (f : Row → JsNum) : JsNum :=
  if rows.isEmpty then .nan
  else
    match seqSum rows f with
    | .val s => .val (s / rows.length)
    | .nan => .nan

/-- Modelled from the spec: `min`/`max` extremum reductions (§4.3).  The
empty-sequence result is unspecified by the spec; modelled as null.  No
claim exercises these. -/
def seqExtremum (better : Rat → Rat → Bool) (rows : List Row)
    (f : Row → JsNum) : Option JsNum :=
  match rows.map f with
  | [] => none
  | x :: xs =>
    some (xs.foldl
      (fun a b =>
        match a, b with
        | .val p, .val q => .val (if better q p then q else p)
        | _, _ => .nan)
      x)

/-- Modelled from the spec: `distinct` by a projected key (§6), keeping
first occurrences; key equality is SameValueZero-style structural equality
(NaN equals itself), as in a JS keyed collection. -/
def seqDistinctValues (rows : List Row) (f : Row → Value) : List Value :=
  rows.foldl
    (fun acc r => if acc.contains (f r) then acc else acc ++ [f r]) []

/-- The aggregation projection `(r) => Number(r[col] ?? 0)`. -/
def colNum (col : String) (r : Row) : JsNum :=
  let v := getField r col
  jsToNumber (if v.isLooseNull then .vNum 0 else v)

/-- The built-in aggregation switch of `evaluateMetric` (semanticEngine.ts
lines 1000-1022), duplicated verbatim in `evaluateMeasure` (lines
471-488).  The closed `Aggregation` type makes the `default: throw`
branch unreachable. -/
def applyAggregation (agg : Aggregation) (col : String) (rows : List Row) :
    Option JsNum :=
  match agg with
  | .sum => some (seqSum rows (colNum col))
  | .avg => some (seqAvg rows (colNum col))
  | .count => some (seqCount rows)
  | .min => seqExtremum (fun a b => a < b) rows (colNum col)
  | .max => seqExtremum (fun a b => a > b) rows (colNum col)
  | .distinct => some (.val (seqDistinctValues rows (fun r => getField r col)).length)

/-- `MetricDefinition` (semanticEngine.ts lines 294-349): the four-way
tagged union, with `description` and `format` carried on every variant. -/
inductive MetricDefinition where
  | simple (name : String) (description : Option String)
      (format : Option String) (measure : String)
      (grain : Option (List String)) : MetricDefinition
  | expression (name : String) (description : Option String)
      (format : Option String) (factTable : String)
      (grain : Option (List String))
      (expression : List Row → InMemoryDb → FilterContext → Option JsNum) :
      MetricDefinition
  | derived (name : String) (description : Option String)
      (format : Option String) (dependencies : List String)
      (evalFromDeps : List (String × Option JsNum) → InMemoryDb →
        FilterContext → Option JsNum) : MetricDefinition
  | contextTransform (name : String) (description : Option String)
      (format : Option String) (baseMeasure : String) (transform : String) :
      MetricDefinition

/-- The declared display format of a metric (`def.format`). -/
def MetricDefinition.format : MetricDefinition → Option String
  | .simple _ _ f _ _ => f
  | .expression _ _ f _ _ _ => f
  | .derived _ _ f _ _ => f
  | .contextTransform _ _ f _ _ => f

abbrev MetricRegistry := List (String × MetricDefinition)

abbrev ContextTransformFn := FilterContext → FilterContext

abbrev ContextTransformsRegistry := List (String × ContextTransformFn)

/-- JS property assignment `obj[k] = v` / spread override: overwrite in
place if the key exists, else append. -/
def objSet {α : Type} (obj : List (String × α)) (k : String) (v : α) :
    List (String × α) :=
  if (List.lookup k obj).isSome then
    obj.map (fun kv => if kv.1 = k then (k, v) else kv)
  else obj ++ [(k, v)]

/-- JS object spread `{...base, ...over}`: `over`'s entries assigned in
order on top of `base`. -/
def spreadMerge {α : Type} (base over : List (String × α)) :
    List (String × α) :=
  over.foldl (fun acc kv => objSet acc kv.1 kv.2) base

/-- The evaluation cache, `Map<string, number|null>` in insertion order. -/
abbrev Cache := List (String × Option JsNum)

def cacheLookup (k : String) (c : Cache) : Option (Option JsNum) :=
  List.lookup k c

/-- `Map.set`: overwrite in place if the key exists, else append. -/
def cacheSet (k : String) (v : Option JsNum) (c : Cache) : Cache :=
  objSet c k v

/-- `Object.keys(rows[0] || {})` — the grain-inference fallback. -/
def firstRowKeys (rows : List Row) : List String :=
  (rows.headD []).map Prod.fst

/-- `evaluateMetric` (semanticEngine.ts lines 957-1071).  `fuel` models
the JS call stack (the source detects no dependency cycles, so a cycle
exhausts the stack); recursion is structural on `fuel`.  The updated
cache is returned alongside the value since the source mutates it.  The
`derived` branch's dependency loop (lines 1035-1046) is the fold:
each dependency is evaluated in order with the shared cache threaded
through, and `depValues[dep] = ...` is a JS property assignment. -/
def evaluateMetric (fuel : Nat) (metricName : String) (db : InMemoryDb)
    (metricRegistry : MetricRegistry) (context : FilterContext)
    (transforms : ContextTransformsRegistry) (cache : Cache)
    (measureRegistry : Option MeasureRegistry) :
    Except String (Option JsNum × Cache) :=
  match fuel with
  | 0 => .error "Maximum call stack size exceeded"
  | n + 1 =>
    let key := cacheKey metricName context
    match cacheLookup key cache with
    | some v => .ok (v, cache)
    | none =>
      match List.lookup metricName metricRegistry with
      | none => .error ("Unknown metric: " ++ metricName)
      | some mdef =>
        match mdef with
        | .simple _ _ _ measure grain =>
          match measureRegistry with
          | none => .error "MeasureRegistry required for simple metrics"
          | some mreg =>
            match List.lookup measure mreg with
            | none => .error ("Unknown measure: " ++ measure)
            | some measureDef =>
              match List.lookup measureDef.table db.tables with
              | none => .error ("Missing rows for table: " ++ measureDef.table)
              | some rows =>
                let grain := grain.getD (firstRowKeys rows)
                let filteredRows := applyContextToFact rows context grain
                let value :=
                  match measureDef.expression with
                  | some e => e filteredRows
                  | none =>
                    applyAggregation measureDef.aggregation
                      measureDef.column filteredRows
                .ok (value, cacheSet key value cache)
        | .expression _ _ _ factTable grain expr =>
          match List.lookup factTable db.tables with
          | none => .error ("Missing rows for fact table: " ++ factTable)
          | some rows =>
            let grain := grain.getD (firstRowKeys rows)
            let q := applyContextToFact rows context grain
            let value := expr q db context
            .ok (value, cacheSet key value cache)
        | .derived _ _ _ dependencies evalFromDeps =>
          let deps : Except String (List (String × Option JsNum) × Cache) :=
            dependencies.foldl
              (fun acc dep =>
                match acc with
                | .error e => .error e
                | .ok (depValues, c1) =>
                  match evaluateMetric n dep db metricRegistry context
                      transforms c1 measureRegistry with
                  | .error e => .error e
                  | .ok (v, c2) => .ok (objSet depValues dep v, c2))
              (.ok ([], cache))
          match deps with
          | .error e => .error e
          | .ok (depValues, c2) =>
            let value := evalFromDeps depValues db context
            .ok (value, cacheSet key value c2)
        | .contextTransform _ _ _ baseMeasure transform =>
          match List.lookup transform transforms with
          | none => .error ("Unknown context transform: " ++ transform)
          | some transformFn =>
            let transformedContext := transformFn context
            match evaluateMetric n baseMeasure db metricRegistry
                transformedContext transforms cache measureRegistry with
            | .error e => .error e
            | .ok (value, c2) => .ok (value, cacheSet key value c2)


/-- `composeTransforms` (semanticEngine.ts lines 406-412): thread the
context through the transforms left to right. -/
def composeTransforms (transforms : List ContextTransformFn) :
    ContextTransformFn :=
  fun ctx => transforms.foldl (fun acc t => t acc) ctx

/-- `shiftYear` (semanticEngine.ts lines 419-423). -/
def shiftYear (offset : Rat) : ContextTransformFn := fun ctx =>
  if (getCtxField ctx "year").isLooseNull then ctx
  else objSet ctx "year"
    (.prim ((getCtxField ctx "year").toNumber.addConst offset).toValue)

/-- `shiftMonth` (semanticEngine.ts lines 426-430). -/
def shiftMonth (offset : Rat) : ContextTransformFn := fun ctx =>
  if (getCtxField ctx "month").isLooseNull then ctx
  else objSet ctx "month"
    (.prim ((getCtxField ctx "month").toNumber.addConst offset).toValue)

/-- `rollingMonths` (semanticEngine.ts lines 433-441). -/
def rollingMonths (count : Rat) : ContextTransformFn := fun ctx =>
  if (getCtxField ctx "month").isLooseNull then ctx
  else
    let currentMonth := (getCtxField ctx "month").toNumber
    objSet ctx "month"
      (.range
        { gte := some ((currentMonth.addConst (-count)).addConst 1).toValue,
          lte := some currentMonth.toValue })

/-- `ytd` (semanticEngine.ts lines 1547-1550): with `year` and `month`
both non-null, replace `month` by the range `{lte: Number(month)}`. -/
def ytd : ContextTransformFn := fun ctx =>
  if (getCtxField ctx "year").isLooseNull || (getCtxField ctx "month").isLooseNull
  then ctx
  else objSet ctx "month"
    (.range { lte := some (getCtxField ctx "month").toNumber.toValue })

/-- `lastYear` (semanticEngine.ts lines 1552-1555). -/
def lastYear : ContextTransformFn := fun ctx =>
  if (getCtxField ctx "year").isLooseNull then ctx
  else objSet ctx "year"
    (.prim ((getCtxField ctx "year").toNumber.addConst (-1)).toValue)

/-- `priorMonth` (semanticEngine.ts lines 1557-1560). -/
def priorMonth : ContextTransformFn := fun ctx =>
  if (getCtxField ctx "month").isLooseNull then ctx
  else objSet ctx "month"
    (.prim ((getCtxField ctx "month").toNumber.addConst (-1)).toValue)

/-- `demoTransforms` (semanticEngine.ts lines 1563-1573). -/
def demoTransforms : ContextTransformsRegistry :=
  [("ytd", ytd),
   ("lastYear", lastYear),
   ("priorMonth", priorMonth),
   ("ytdLastYear", composeTransforms [ytd, lastYear]),
   ("priorMonthLastYear", composeTransforms [priorMonth, lastYear]),
   ("rolling3Months", rollingMonths 3),
   ("rolling6Months", rollingMonths 6)]

/-- `formatValue` (semanticEngine.ts lines 868-881): null/undefined/NaN
input formats to null; otherwise dispatch on the format tag. -/
def formatValue (value : Option JsNum) (format : Option String) :
    Option String :=
  match value with
  | none => none
  | some .nan => none
  | some (.val q) =>
    match format with
    | some "currency" => some ("$" ++ toFixed 2 q)
    | some "integer" => some (toFixed 0 q)
    | some "percent" => some (toFixed 2 q ++ "%")
    | _ => some (ratDecimalString q)

/-- `demoDb` (semanticEngine.ts lines 1353-1384). -/
def demoDb : InMemoryDb :=
  { tables :=
    [("products",
      [[("productId", .vNum 1), ("name", .vStr "Widget A")],
       [("productId", .vNum 2), ("name", .vStr "Widget B")]]),
     ("regions",
      [[("regionId", .vStr "NA"), ("name", .vStr "North America")],
       [("regionId", .vStr "EU"), ("name", .vStr "Europe")]]),
     ("sales",
      [[("year", .vNum 2024), ("month", .vNum 1), ("regionId", .vStr "NA"),
        ("productId", .vNum 1), ("quantity", .vNum 7), ("amount", .vNum 700)],
       [("year", .vNum 2024), ("month", .vNum 1), ("regionId", .vStr "NA"),
        ("productId", .vNum 2), ("quantity", .vNum 4), ("amount", .vNum 480)],
       [("year", .vNum 2024), ("month", .vNum 2), ("regionId", .vStr "NA"),
        ("productId", .vNum 1), ("quantity", .vNum 5), ("amount", .vNum 650)],
       [("year", .vNum 2024), ("month", .vNum 2), ("regionId", .vStr "EU"),
        ("productId", .vNum 1), ("quantity", .vNum 3), ("amount", .vNum 420)],
       [("year", .vNum 2025), ("month", .vNum 1), ("regionId", .vStr "NA"),
        ("productId", .vNum 1), ("quantity", .vNum 10), ("amount", .vNum 1000)],
       [("year", .vNum 2025), ("month", .vNum 1), ("regionId", .vStr "NA"),
        ("productId", .vNum 2), ("quantity", .vNum 5), ("amount", .vNum 600)],
       [("year", .vNum 2025), ("month", .vNum 1), ("regionId", .vStr "EU"),
        ("productId", .vNum 1), ("quantity", .vNum 4), ("amount", .vNum 500)],
       [("year", .vNum 2025), ("month", .vNum 2), ("regionId", .vStr "NA"),
        ("productId", .vNum 1), ("quantity", .vNum 8), ("amount", .vNum 950)],
       [("year", .vNum 2025), ("month", .vNum 2), ("regionId", .vStr "EU"),
        ("productId", .vNum 2), ("quantity", .vNum 3), ("amount", .vNum 450)]]),
     ("budget",
      [[("year", .vNum 2024), ("regionId", .vStr "NA"), ("budgetAmount", .vNum 1500)],
       [("year", .vNum 2024), ("regionId", .vStr "EU"), ("budgetAmount", .vNum 1000)],
       [("year", .vNum 2025), ("regionId", .vStr "NA"), ("budgetAmount", .vNum 2200)],
       [("year", .vNum 2025), ("regionId", .vStr "EU"), ("budgetAmount", .vNum 1600)]])] }

/-- `demoMeasures` (semanticEngine.ts lines 1493-1538). -/
def demoMeasures : MeasureRegistry :=
  [("salesAmount",
    { name := "salesAmount", table := "sales", column := "amount",
      aggregation := .sum, format := some "currency",
      description := some "Total sales amount" }),
   ("salesQuantity",
    { name := "salesQuantity", table := "sales", column := "quantity",
      aggregation := .sum, format := some "integer",
      description := some "Total sales quantity" }),
   ("avgOrderSize",
    { name := "avgOrderSize", table := "sales", column := "amount",
      aggregation := .avg, format := some "currency",
      description := some "Average order size" }),
   ("orderCount",
    { name := "orderCount", table := "sales", column := "quantity",
      aggregation := .count, format := some "integer",
      description := some "Number of orders" }),
   ("budgetAmount",
    { name := "budgetAmount", table := "budget", column := "budgetAmount",
      aggregation := .sum, format := some "currency",
      description := some "Total budget amount" })]

/-- `demoMetrics` after `buildDemoMetrics()` (semanticEngine.ts lines
1596-1709), entries in registration order. -/
def demoMetrics : MetricRegistry :=
  [("revenue",
    .simple "revenue" (some "Total revenue from sales") (some "currency")
      "salesAmount" none),
   ("quantity",
    .simple "quantity" (some "Total quantity sold") (some "integer")
      "salesQuantity" none),
   ("budget",
    .simple "budget" (some "Total budget amount") (some "currency")
      "budgetAmount" none),
   ("pricePerUnit",
    .expression "pricePerUnit"
      (some "Sales amount / quantity over the current context.")
      (some "currency") "sales" none
      (fun rows _db _ctx =>
        let amount := seqSum rows (colNum "amount")
        let qty := seqSum rows (colNum "quantity")
        if qty.truthy then some (amount.div qty) else none)),
   ("salesVsBudgetPct",
    .derived "salesVsBudgetPct" (some "Total sales / total budget.")
      (some "percent") ["revenue", "budget"]
      (fun depValues _db _ctx =>
        let s := ((List.lookup "revenue" depValues).join).getD (.val 0)
        let b := ((List.lookup "budget" depValues).join).getD (.val 0)
        if !b.truthy then none else some ((s.div b).mulConst 100))),
   ("salesAmountYTD",
    .contextTransform "salesAmountYTD" (some "YTD of total sales amount.")
      (some "currency") "revenue" "ytd"),
   ("salesAmountLastYear",
    .contextTransform "salesAmountLastYear"
      (some "Total sales amount for previous year.") (some "currency")
      "revenue" "lastYear"),
   ("salesAmountYTDLastYear",
    .contextTransform "salesAmountYTDLastYear"
      (some "YTD of total sales amount in previous year.") (some "currency")
      "revenue" "ytdLastYear"),
   ("budgetYTD",
    .contextTransform "budgetYTD"
      (some "YTD of total budget (may match full year if budget is annual).")
      (some "currency") "budget" "ytd"),
   ("budgetLastYear",
    .contextTransform "budgetLastYear"
      (some "Total budget in previous year.") (some "currency")
      "budget" "lastYear"),
   ("salesVsBudgetPctYTD",
    .derived "salesVsBudgetPctYTD" (some "YTD sales / YTD budget.")
      (some "percent") ["salesAmountYTD", "budgetYTD"]
      (fun depValues _db _ctx =>
        let s := ((List.lookup "salesAmountYTD" depValues).join).getD (.val 0)
        let b := ((List.lookup "budgetYTD" depValues).join).getD (.val 0)
        if !b.truthy then none else some ((s.div b).mulConst 100)))]

/-- `AttributeDefinition` (semanticEngine.ts lines 241-255). -/
structure AttributeDefinition where
  name : String
  table : String
  column : String
  description : Option String := none
  displayName : Option String := none
  format : Option (Value → String) := none
  expression : Option (Row → Value) := none

abbrev AttributeRegistry := List (String × AttributeDefinition)

/-- Column data types of `TableDefinition` (semanticEngine.ts line 212). -/
inductive DataType where
  | string | number | date | boolean
deriving DecidableEq, Repr

/-- A relationship entry of `TableDefinition` (semanticEngine.ts lines
217-222); `to`/`from`/`type` are Lean keywords, hence the primes. -/
structure TableRelationship where
  to' : String
  from' : List String
  toColumns : List String
  type' : String

/-- `TableDefinition` (semanticEngine.ts lines 208-223). -/
structure TableDefinition where
  name : String
  columns : List (String × DataType)
  primaryKey : Option (List String) := none
  relationships : List TableRelationship := []

abbrev TableRegistry := List (String × TableDefinition)

/-- `RunQueryOptions` (semanticEngine.ts lines 1103-1107). -/
structure RunQueryOptions where
  attributes : List String
  filters : FilterContext := []
  metrics : List String

/-- `JSON.parse(JSON.stringify(subRow))` on a scalar-valued sub-row, as
used for group keys: `undefined`-valued keys are dropped and `NaN`
becomes `null` (JSON has neither). -/
def jsonRoundtrip (r : Row) : Row :=
  r.filterMap
    (fun kv => match kv.2 with
      | .vUndefined => none
      | .vNaN => some (kv.1, .vNull)
      | v => some (kv.1, v))

/-- Modelled from the spec: `groupBy` of the row-sequence capability
(`linq.js`, not under `src/`; §6), with string keys compared for equality
and groups kept in first-seen order (§4.6 step 3).  The
stringify/parse round-trip on the key is `jsonRoundtrip`. -/
def groupByKey (rows : List Row) (keyOf : Row → Row) :
    List (Row × List Row) :=
  rows.foldl
    (fun acc r =>
      let k := keyOf r
      if acc.any (fun g => g.1 == k) then
        acc.map (fun g => if g.1 = k then (g.1, g.2 ++ [r]) else g)
      else acc ++ [(k, [r])])
    []

/-- The attribute-output computation of `runQuery` (semanticEngine.ts
lines 1183-1196): a derivation expression, when present, is invoked on a
synthetic one-field row `{ [attrDef.column]: rawValue }`; otherwise the
format function or the raw value is used. -/
def attributeOutputValue (attrDef : AttributeDefinition) (keyObj : Row) :
    Value :=
  let rawValue := getField keyObj attrDef.column
  match attrDef.expression with
  | some e => e [(attrDef.column, rawValue)]
  | none =>
    match attrDef.format with
    | some f => .vStr (f rawValue)
    | none => rawValue

/-- `attrDef.displayName.replace(/Name$/, 's')`. -/
def replaceNameSuffix (s : String) : String :=
  if s.endsWith "Name" then s.dropRight 4 ++ "s" else s

/-- The display-name enrichment of `runQuery` (semanticEngine.ts lines
1198-1212): guess the related table from the display-name suffix, find
the first row whose key column strictly equals the raw value, and use its
truthy `name` field, if any. -/
def resolveDisplayName (db : InMemoryDb) (attrDef : AttributeDefinition)
    (rawValue : Value) : Option (String × Value) :=
  match attrDef.displayName with
  | none => none
  | some dn =>
    match List.lookup (replaceNameSuffix dn) db.tables with
    | none => none
    | some relatedTable =>
      match relatedTable.find?
          (fun r => (getField r attrDef.column).jsStrictEq rawValue) with
      | none => none
      | some m =>
        if (getField m "name").jsTruthy then some (dn, getField m "name")
        else none

/-- The per-group output-row attribute loop of `runQuery` (semanticEngine.ts
lines 1183-1213). -/
def buildAttrOutputs (db : InMemoryDb)
    (attrDefs : List (String × AttributeDefinition)) (keyObj : Row) : Row :=
  attrDefs.foldl
    (fun outputRow pair =>
      let rawValue := getField keyObj pair.2.column
      let outputRow := objSet outputRow pair.1 (attributeOutputValue pair.2 keyObj)
      match resolveDisplayName db pair.2 rawValue with
      | some dnv => objSet outputRow dnv.1 dnv.2
      | none => outputRow)
    []

/-- The attribute-definition resolution loop of `runQuery` (semanticEngine.ts
lines 1150-1157). -/
def resolveAttrDefs (attrNames : List String) (reg : AttributeRegistry) :
    Except String (List (String × AttributeDefinition)) :=
  match attrNames with
  | [] => .ok []
  | a :: rest =>
    match List.lookup a reg with
    | none => .error ("Unknown attribute: " ++ a)
    | some d =>
      match resolveAttrDefs rest reg with
      | .error e => .error e
      | .ok ds => .ok ((a, d) :: ds)

/-- The per-group metric loop of `runQuery` (semanticEngine.ts lines
1216-1229): evaluate each metric under the group context with the shared
cache and store its formatted value (JS `null` stored as `null`).  The
unguarded `metricRegistry[m].format` read cannot miss: `evaluateMetric`
just succeeded on `m` with a cache that, within one query, only ever
holds keys of registered metrics. -/
def evalGroupMetrics (fuel : Nat) (metrics : List String) (db : InMemoryDb)
    (metricRegistry : MetricRegistry) (rowContext : FilterContext)
    (transforms : ContextTransformsRegistry) (cache : Cache)
    (measureRegistry : MeasureRegistry) (acc : Row) :
    Except String (Row × Cache) :=
  match metrics with
  | [] => .ok (acc, cache)
  | m :: rest =>
    match evaluateMetric fuel m db metricRegistry rowContext transforms cache
        (some measureRegistry) with
    | .error e => .error e
    | .ok (numericValue, c1) =>
      let fmt :=
        match List.lookup m metricRegistry with
        | some d => d.format
        | none => none
      let v : Value :=
        match formatValue numericValue fmt with
        | some s => .vStr s
        | none => .vNull
      evalGroupMetrics fuel rest db metricRegistry rowContext transforms c1
        measureRegistry (objSet acc m v)

/-- The group loop of `runQuery` (semanticEngine.ts lines 1170-1235):
per-group context = global filters overridden by the group's key/value
pairs; one output row per group, attribute outputs merged with formatted
metric outputs; one cache shared across all groups and metrics. -/
def runQueryGroups (fuel : Nat) (db : InMemoryDb)
    (metricRegistry : MetricRegistry)
    (transforms : ContextTransformsRegistry)
    (measureRegistry : MeasureRegistry) (filters : FilterContext)
    (attrDefs : List (String × AttributeDefinition)) (metrics : List String)
    (groups : List (Row × List Row)) (cache : Cache) :
    Except String (List Row × Cache) :=
  match groups with
  | [] => .ok ([], cache)
  | g :: rest =>
    let keyObj := g.1
    let rowContext :=
      spreadMerge filters (keyObj.map (fun kv => (kv.1, FilterValue.prim kv.2)))
    let outputRow := buildAttrOutputs db attrDefs keyObj
    match evalGroupMetrics fuel metrics db metricRegistry rowContext
        transforms cache measureRegistry [] with
    | .error e => .error e
    | .ok (metricValues, c1) =>
      match runQueryGroups fuel db metricRegistry transforms measureRegistry
          filters attrDefs metrics rest c1 with
      | .error e => .error e
      | .ok (rows, c2) => .ok (spreadMerge outputRow metricValues :: rows, c2)

/-- `runQuery` (semanticEngine.ts lines 1113-1238).  The `tableRegistry`
parameter is accepted and ignored, as in the source body; `fuel` models
the JS call stack of the metric evaluator. -/
def runQuery (fuel : Nat) (db : InMemoryDb) (_tableRegistry : TableRegistry)
    (attributeRegistry : AttributeRegistry)
    (measureRegistry : MeasureRegistry) (metricRegistry : MetricRegistry)
    (transforms : ContextTransformsRegistry) (options : RunQueryOptions) :
    Except String (List Row) :=
  match options.attributes with
  | [] => .error "At least one attribute is required"
  | a0 :: _ =>
    match List.lookup a0 attributeRegistry with
    | none => .error ("Unknown attribute: " ++ a0)
    | some primaryAttr =>
      match List.lookup primaryAttr.table db.tables with
      | none => .error ("Missing rows for table: " ++ primaryAttr.table)
      | some tableRows =>
        let tableGrain := firstRowKeys tableRows
        let filtered := applyContextToFact tableRows options.filters tableGrain
        match resolveAttrDefs options.attributes attributeRegistry with
        | .error e => .error e
        | .ok attrDefs =>
          let attrColumns := attrDefs.map (fun p => p.2.column)
          let groups := groupByKey filtered
            (fun r => jsonRoundtrip (pick r attrColumns))
          match runQueryGroups fuel db metricRegistry transforms
              measureRegistry options.filters attrDefs options.metrics
              groups [] with
          | .error e => .error e
          | .ok (result, _) => .ok result

/-- The Filter Matcher contract as the spec words it (§4.1), for
comparison with the source's `matchesFilter`: a plain scalar means strict
equality; an object containing a `from` or `to` key is an inclusive range
and the other four bounds are NOT consulted; otherwise the result is the
logical AND of each present (non-null) bound's check, where `value < gte`,
`value > lte`, `value <= gt` and `value >= lt` each fail. -/
def matchesFilterSpec (value : Value) (filter : FilterValue) : Bool :=
  match filter with
  | .prim p => value.jsStrictEq p
  | .range f =>
    if f.from'.isSome || f.to'.isSome then
      !(((boundVal f.from').any fun b => jsLt value b) ||
        ((boundVal f.to').any fun b => jsGt value b))
    else
      ((boundVal f.gte).all fun b => !jsLt value b) &&
      ((boundVal f.lte).all fun b => !jsGt value b) &&
      ((boundVal f.gt).all fun b => !jsLe value b) &&
      ((boundVal f.lt).all fun b => !jsGe value b)

/-- A demo-shaped context, `{year: 2025, month: 2}`. -/
def ctx2025Feb : FilterContext :=
  [("year", .prim (.vNum 2025)), ("month", .prim (.vNum 2))]

/-- The same bindings inserted in the opposite order,
`{month: 2, year: 2025}`. -/
def ctx2025FebSwapped : FilterContext :=
  [("month", .prim (.vNum 2)), ("year", .prim (.vNum 2025))]

/-- The context the `ytdLastYear` transform is expected to produce from
`{year: 2025, month: 2}`: `{year: 2024, month: {lte: 2}}`. -/
def ctx2024JanFeb : FilterContext :=
  [("year", .prim (.vNum 2024)), ("month", .range { lte := some (.vNum 2) })]

/-- A one-table database for exercising `runQuery`'s synthetic-row
behaviour: table `t` has a single row `{a: 1, b: 5}`. -/
def synthDb : InMemoryDb :=
  { tables := [("t", [[("a", .vNum 1), ("b", .vNum 5)]])] }

/-- An attribute over `t.a` whose derivation expression reads field `b`
of the row it receives. -/
def synthAttrDef : AttributeDefinition :=
  { name := "x", table := "t", column := "a",
    expression := some (fun r => getField r "b") }

/-- Registry holding `synthAttrDef` under name `x`. -/
def synthAttrs : AttributeRegistry := [("x", synthAttrDef)]

/-! Helper lemmas about association-list lookup and JS-style assignment. -/

theorem lookup_map_set {α : Type} (k : String) (v : α) :
    ∀ (obj : List (String × α)), (List.lookup k obj).isSome →
      List.lookup k (obj.map (fun kv => if kv.1 = k then (k, v) else kv)) = some v := by
  intro obj
  induction obj with
  | nil => intro h; simp at h
  | cons hd tl ih =>
    intro h
    rw [show ((hd : String × α) = (hd.1, hd.2)) from rfl] at *
    by_cases hk : hd.1 = k
    · simp [hk, List.lookup_cons]
    · have hne : (k == hd.1) = false := by
        simp only [beq_eq_false_iff_ne, ne_eq]
        exact fun hkk => hk hkk.symm
      simp only [List.lookup_cons, hne] at h
      simp only [List.map_cons, if_neg hk, List.lookup_cons, hne]
      exact ih h

theorem lookup_append_single {α : Type} (k : String) (v : α) :
    ∀ (obj : List (String × α)), List.lookup k obj = none →
      List.lookup k (obj ++ [(k, v)]) = some v := by
  intro obj
  induction obj with
  | nil => intro _; simp [List.lookup_cons]
  | cons hd tl ih =>
    intro h
    rw [show ((hd : String × α) = (hd.1, hd.2)) from rfl] at *
    cases hkk : (k == hd.1) with
    | true =>
      simp only [List.lookup_cons, hkk] at h
      exact absurd h (by simp)
    | false =>
      simp only [List.lookup_cons, hkk] at h
      simp only [List.cons_append, List.lookup_cons, hkk]
      exact ih h

theorem lookup_map_set_ne {α : Type} (k k' : String) (v : α)
    (h : (k' == k) = false) :
    ∀ (obj : List (String × α)),
      List.lookup k' (obj.map (fun kv => if kv.1 = k then (k, v) else kv)) =
        List.lookup k' obj := by
  intro obj
  induction obj with
  | nil => rfl
  | cons hd tl ih =>
    rw [show ((hd : String × α) = (hd.1, hd.2)) from rfl]
    by_cases hk : hd.1 = k
    · have hne : (k' == hd.1) = false := by rw [hk]; exact h
      simp only [List.map_cons, if_pos hk, List.lookup_cons, h, hne]
      exact ih
    · simp only [List.map_cons, if_neg hk, List.lookup_cons]
      cases (k' == hd.1) <;> simp [ih]

theorem lookup_append_ne {α : Type} (k k' : String) (v : α)
    (h : (k' == k) = false) :
    ∀ (obj : List (String × α)),
      List.lookup k' (obj ++ [(k, v)]) = List.lookup k' obj := by
  intro obj
  induction obj with
  | nil => simp [List.lookup_cons, h]
  | cons hd tl ih =>
    rw [show ((hd : String × α) = (hd.1, hd.2)) from rfl]
    simp only [List.cons_append, List.lookup_cons]
    cases (k' == hd.1) <;> simp [ih]

theorem lookup_objSet_self {α : Type} (obj : List (String × α)) (k : String) (v : α) :
    List.lookup k (objSet obj k v) = some v := by
  unfold objSet
  split
  · exact lookup_map_set k v obj (by assumption)
  · rename_i h
    exact lookup_append_single k v obj (Option.not_isSome_iff_eq_none.mp h)

theorem lookup_objSet_ne {α : Type} (obj : List (String × α)) (k k' : String) (v : α)
    (h : k' ≠ k) : List.lookup k' (objSet obj k v) = List.lookup k' obj := by
  have hbe : (k' == k) = false := by simp [beq_eq_false_iff_ne, h]
  unfold objSet
  split
  · exact lookup_map_set_ne k k' v hbe obj
  · exact lookup_append_ne k k' v hbe obj

theorem getCtxField_objSet_self (ctx : FilterContext) (k : String) (v : FilterValue) :
    getCtxField (objSet ctx k v) k = v := by
  simp [getCtxField, lookup_objSet_self]

theorem getCtxField_objSet_ne (ctx : FilterContext) (k k' : String) (v : FilterValue)
    (h : k' ≠ k) : getCtxField (objSet ctx k v) k' = getCtxField ctx k' := by
  simp [getCtxField, lookup_objSet_ne ctx k k' v h]

theorem cacheLookup_cacheSet (c : Cache) (k : String) (v : Option JsNum) :
    cacheLookup k (cacheSet k v c) = some v := by
  simp [cacheLookup, cacheSet, lookup_objSet_self]

set_option maxRecDepth 100000

/-! Further helper lemmas. -/

theorem if_guard_false (c t : Bool) : (if c then false else t) = (!c && t) := by
  cases c <;> simp

theorem applyContextToFact_cons (rows : List Row) (kv : String × FilterValue)
    (rest : FilterContext) (grain : List String) :
    applyContextToFact rows (kv :: rest) grain =
      applyContextToFact
        (if kv.2.isLooseNull then rows
         else if !grain.contains kv.1 then rows
         else rows.filter (fun r => matchesFilter (getField r kv.1) kv.2))
        rest grain := rfl

theorem applyContextToFact_filter_grain :
    ∀ (context : FilterContext) (rows : List Row) (grain : List String),
      applyContextToFact rows
        (context.filter (fun kv => grain.contains kv.1)) grain =
      applyContextToFact rows context grain := by
  intro context
  induction context with
  | nil => intro rows grain; rfl
  | cons kv rest ih =>
    intro rows grain
    rw [List.filter_cons]
    by_cases hg : grain.contains kv.1
    · rw [if_pos hg, applyContextToFact_cons, applyContextToFact_cons]
      exact ih _ grain
    · rw [if_neg (by simpa using hg), applyContextToFact_cons]
      have hrows :
          (if kv.2.isLooseNull then rows
           else if !grain.contains kv.1 then rows
           else rows.filter (fun r => matchesFilter (getField r kv.1) kv.2)) =
            rows := by
        have hgf : grain.contains kv.1 = false := by simpa using hg
        rw [hgf]
        cases kv.2.isLooseNull <;> simp
      rw [hrows]
      exact ih rows grain

theorem applyContextToFact_filter_nullish :
    ∀ (context : FilterContext) (rows : List Row) (grain : List String),
      applyContextToFact rows
        (context.filter (fun kv => !kv.2.isLooseNull)) grain =
      applyContextToFact rows context grain := by
  intro context
  induction context with
  | nil => intro rows grain; rfl
  | cons kv rest ih =>
    intro rows grain
    rw [List.filter_cons]
    cases hn : kv.2.isLooseNull with
    | true =>
      rw [if_neg (by simp [hn]), applyContextToFact_cons]
      rw [if_pos hn]
      exact ih rows grain
    | false =>
      rw [if_pos (by simp [hn]), applyContextToFact_cons, applyContextToFact_cons]
      exact ih _ grain

theorem ytd_step (c : FilterContext)
    (hy : (getCtxField c "year").isLooseNull = false)
    (hm : (getCtxField c "month").isLooseNull = false) :
    ytd c = objSet c "month"
      (.range { lte := some (getCtxField c "month").toNumber.toValue }) := by
  unfold ytd
  rw [hy, hm]
  simp

/-- C1: the metric evaluator memoizes: (1) a successful evaluation leaves
the computed value stored in the returned cache under the key derived
from the metric name and context — including a stored `null` (`none`),
a valid cached value distinct from an absent entry; (2) with the key
already cached, evaluation returns the cached value immediately, with the
cache untouched and without consulting the registry or recomputing
anything (the registry, database and transforms are arbitrary); (3) hence
evaluating the same metric twice under one cache returns the same value
both times. -/
theorem c1_evaluation_caches :
    (∀ (fuel : Nat) (m : String) (db : InMemoryDb) (reg : MetricRegistry)
       (ctx : FilterContext) (tr : ContextTransformsRegistry) (cache : Cache)
       (mr : Option MeasureRegistry) (v : Option JsNum) (c' : Cache),
       evaluateMetric (fuel + 1) m db reg ctx tr cache mr = .ok (v, c') →
       cacheLookup (cacheKey m ctx) c' = some v) ∧
    (∀ (fuel : Nat) (m : String) (db : InMemoryDb) (reg : MetricRegistry)
       (ctx : FilterContext) (tr : ContextTransformsRegistry) (cache : Cache)
       (mr : Option MeasureRegistry) (v : Option JsNum),
       cacheLookup (cacheKey m ctx) cache = some v →
       evaluateMetric (fuel + 1) m db reg ctx tr cache mr = .ok (v, cache)) ∧
    (∀ (fuel fuel2 : Nat) (m : String) (db : InMemoryDb) (reg : MetricRegistry)
       (ctx : FilterContext) (tr : ContextTransformsRegistry) (cache : Cache)
       (mr : Option MeasureRegistry) (v : Option JsNum) (c' : Cache),
       evaluateMetric (fuel + 1) m db reg ctx tr cache mr = .ok (v, c') →
       evaluateMetric (fuel2 + 1) m db reg ctx tr c' mr = .ok (v, c')) := by
  have hstore : ∀ (fuel : Nat) (m : String) (db : InMemoryDb)
      (reg : MetricRegistry) (ctx : FilterContext)
      (tr : ContextTransformsRegistry) (cache : Cache)
      (mr : Option MeasureRegistry) (v : Option JsNum) (c' : Cache),
      evaluateMetric (fuel + 1) m db reg ctx tr cache mr = .ok (v, c') →
      cacheLookup (cacheKey m ctx) c' = some v := by
    intro fuel m db reg ctx tr cache mr v c' h
    unfold evaluateMetric at h
    simp only [] at h
    split at h
    · injection h with h1
      injection h1 with hv hc
      subst hv; subst hc
      assumption
    · split at h
      · exact Except.noConfusion h
      · split at h
        · split at h
          · exact Except.noConfusion h
          · split at h
            · exact Except.noConfusion h
            · split at h
              · exact Except.noConfusion h
              · injection h with h1
                injection h1 with hv hc
                subst hv; subst hc
                exact cacheLookup_cacheSet _ _ _
        · split at h
          · exact Except.noConfusion h
          · injection h with h1
            injection h1 with hv hc
            subst hv; subst hc
            exact cacheLookup_cacheSet _ _ _
        · split at h
          · exact Except.noConfusion h
          · injection h with h1
            injection h1 with hv hc
            subst hv; subst hc
            exact cacheLookup_cacheSet _ _ _
        · split at h
          · exact Except.noConfusion h
          · split at h
            · exact Except.noConfusion h
            · injection h with h1
              injection h1 with hv hc
              subst hv; subst hc
              exact cacheLookup_cacheSet _ _ _
  have hhit : ∀ (fuel : Nat) (m : String) (db : InMemoryDb)
      (reg : MetricRegistry) (ctx : FilterContext)
      (tr : ContextTransformsRegistry) (cache : Cache)
      (mr : Option MeasureRegistry) (v : Option JsNum),
      cacheLookup (cacheKey m ctx) cache = some v →
      evaluateMetric (fuel + 1) m db reg ctx tr cache mr = .ok (v, cache) := by
    intro fuel m db reg ctx tr cache mr v h
    unfold evaluateMetric
    simp only [h]
  refine ⟨hstore, hhit, ?_⟩
  intro fuel fuel2 m db reg ctx tr cache mr v c' h
  exact hhit fuel2 m db reg ctx tr c' mr v
    (hstore fuel m db reg ctx tr cache mr v c' h)

/-- C1 witness: a pre-seeded cache entry (here the value 5 under the key
for `revenue` with the empty context) is returned as-is with the cache
unchanged. -/
theorem c1_witness :
    evaluateMetric 3 "revenue" demoDb demoMetrics [] demoTransforms
      [(cacheKey "revenue" [], some (.val 5))] (some demoMeasures) =
      .ok (some (.val 5), [(cacheKey "revenue" [], some (.val 5))]) :=
  c1_evaluation_caches.2.1 2 "revenue" demoDb demoMetrics [] demoTransforms
    [(cacheKey "revenue" [], some (.val 5))] (some demoMeasures)
    (some (.val 5)) (by with_unfolding_all decide)

/-- C2 counterexample: the claim "contexts with exactly the same bindings
share one cache key regardless of key insertion order" fails on the code:
`{year: 2025, month: 2}` and `{month: 2, year: 2025}` are permutations of
the same bindings, yet `JSON.stringify` serializes keys in insertion
order, so their cache keys differ. -/
theorem c2_counterexample :
    ctx2025Feb.Perm ctx2025FebSwapped ∧
    cacheKey "m" ctx2025Feb ≠ cacheKey "m" ctx2025FebSwapped := by
  constructor
  · with_unfolding_all decide
  · with_unfolding_all decide

/-- C2 amended: the cache key is the pairing of the metric name with the
JSON serialization of the context, which is sensitive to key insertion
order; for a fixed metric name, two contexts share a cache key exactly
when their serializations coincide (in particular, identical bindings in
identical order share one cache entry, but a different insertion order
may not). -/
theorem c2_amended_cacheKey_serialization :
    ∀ (m : String) (c1 c2 : FilterContext),
      cacheKey m c1 = cacheKey m c2 ↔ jsonStringify c1 = jsonStringify c2 := by
  intro m c1 c2
  constructor
  · intro h
    have hd := congrArg String.data h
    simp only [cacheKey, String.data_append, List.append_assoc] at hd
    exact String.ext (List.append_cancel_left (List.append_cancel_left hd))
  · intro h
    simp only [cacheKey, h]

/-- C3: on a cache miss, evaluating a ContextTransform metric fails with
`UnknownTransform` exactly when its named transform is absent from the
transforms registry; otherwise it applies the transform to the current
context and recursively evaluates the base metric under the transformed
context with the same registry, transforms and cache, returning that
result unchanged (errors from the recursive call propagate unchanged, and
a successful value is additionally memoized under the outer key). -/
theorem c3_contextTransform_dispatch :
    (∀ (fuel : Nat) (m : String) (db : InMemoryDb) (reg : MetricRegistry)
       (ctx : FilterContext) (tr : ContextTransformsRegistry) (cache : Cache)
       (mr : Option MeasureRegistry) (nm : String) (ds fmt : Option String)
       (base tname : String),
       cacheLookup (cacheKey m ctx) cache = none →
       List.lookup m reg = some (.contextTransform nm ds fmt base tname) →
       List.lookup tname tr = none →
       evaluateMetric (fuel + 1) m db reg ctx tr cache mr =
         .error ("Unknown context transform: " ++ tname)) ∧
    (∀ (fuel : Nat) (m : String) (db : InMemoryDb) (reg : MetricRegistry)
       (ctx : FilterContext) (tr : ContextTransformsRegistry) (cache : Cache)
       (mr : Option MeasureRegistry) (nm : String) (ds fmt : Option String)
       (base tname : String) (fn : ContextTransformFn),
       cacheLookup (cacheKey m ctx) cache = none →
       List.lookup m reg = some (.contextTransform nm ds fmt base tname) →
       List.lookup tname tr = some fn →
       evaluateMetric (fuel + 1) m db reg ctx tr cache mr =
         (match evaluateMetric fuel base db reg (fn ctx) tr cache mr with
          | .error e => .error e
          | .ok (value, c2) =>
            .ok (value, cacheSet (cacheKey m ctx) value c2))) := by
  constructor
  · intro fuel m db reg ctx tr cache mr nm ds fmt base tname hcache hreg htr
    unfold evaluateMetric
    simp only [hcache, hreg, htr]
  · intro fuel m db reg ctx tr cache mr nm ds fmt base tname fn hcache hreg htr
    conv_lhs => unfold evaluateMetric
    simp only [hcache, hreg, htr]

/-- C3 witness: the demo metric `salesAmountLastYear` (a ContextTransform
over `revenue` via `lastYear`) evaluates under `{year: 2025}` to exactly
the recursive evaluation of `revenue` under `lastYear({year: 2025})`,
memoized under the outer key. -/
theorem c3_witness :
    evaluateMetric 2 "salesAmountLastYear" demoDb demoMetrics
      [("year", .prim (.vNum 2025))] demoTransforms [] (some demoMeasures) =
      (match evaluateMetric 1 "revenue" demoDb demoMetrics
          (lastYear [("year", .prim (.vNum 2025))]) demoTransforms []
          (some demoMeasures) with
       | .error e => .error e
       | .ok (value, c2) =>
         .ok (value,
           cacheSet (cacheKey "salesAmountLastYear"
             [("year", .prim (.vNum 2025))]) value c2)) :=
  c3_contextTransform_dispatch.2 1 "salesAmountLastYear" demoDb demoMetrics
    [("year", .prim (.vNum 2025))] demoTransforms [] (some demoMeasures)
    "salesAmountLastYear" (some "Total sales amount for previous year.")
    (some "currency") "revenue" "lastYear" lastYear
    (by with_unfolding_all decide) (by with_unfolding_all rfl)
    (by with_unfolding_all rfl)

/-- C4: `matchesFilter` computes exactly the Filter Matcher contract of
the spec (`matchesFilterSpec`): strict scalar equality; inclusive
`from`/`to` range when either key is present, with the other four bounds
not consulted; otherwise the logical AND of each present bound's check.
Both functions are total by construction. -/
theorem c4_matchesFilter_meets_contract :
    ∀ (v : Value) (s : FilterValue), matchesFilter v s = matchesFilterSpec v s := by
  intro v s
  cases s with
  | prim p => rfl
  | range f =>
    simp only [matchesFilter, matchesFilterSpec]
    by_cases hft : (f.from'.isSome || f.to'.isSome) = true
    · simp only [hft, if_true, if_guard_false, Bool.and_true]
      cases boundVal f.from' <;> cases boundVal f.to' <;>
        simp [Bool.not_or]
    · simp only [hft, if_false, if_guard_false, Bool.and_true]
      cases boundVal f.gte <;> cases boundVal f.lte <;>
        cases boundVal f.gt <;> cases boundVal f.lt <;>
        simp [Bool.and_assoc]

/-- C5: grain-restriction commutes with context filtering — filtering
rows by a context under a grain equals filtering by the sub-context
restricted to keys in the grain, and likewise keys bound to null or
undefined can be dropped without changing the result; no error arises in
either form. -/
theorem c5_grain_restriction_commutes :
    ∀ (rows : List Row) (context : FilterContext) (grain : List String),
      applyContextToFact rows context grain =
        applyContextToFact rows
          (context.filter (fun kv => grain.contains kv.1)) grain ∧
      applyContextToFact rows context grain =
        applyContextToFact rows
          (context.filter (fun kv => !kv.2.isLooseNull)) grain := by
  intro rows context grain
  exact ⟨(applyContextToFact_filter_grain context rows grain).symm,
         (applyContextToFact_filter_nullish context rows grain).symm⟩

/-- C6: applying YTD-composed-with-lastYear (`ytd` then `lastYear`, left
to right) to `{year: 2025, month: 2}` produces exactly
`{year: 2024, month: {lte: 2}}`, and evaluating the base `revenue` metric
(sum of `sales.amount`) under that context over the demo dataset returns
2250 (the four 2024 Jan/Feb rows: 700 + 480 + 650 + 420). -/
theorem c6_ytdLastYear_demo :
    composeTransforms [ytd, lastYear] ctx2025Feb = ctx2024JanFeb ∧
    evaluateMetric 2 "revenue" demoDb demoMetrics ctx2024JanFeb demoTransforms []
      (some demoMeasures) =
      .ok (some (.val 2250),
        [(cacheKey "revenue" ctx2024JanFeb, some (.val 2250))]) := by
  constructor
  · with_unfolding_all decide
  · with_unfolding_all rfl

/-- C7 counterexample: `ytd` is not idempotent.  On
`{year: 2025, month: 2}` one application yields `month = {lte: 2}`, but a
second application passes the range object through `Number(...)`,
yielding `month = {lte: NaN}` — a different context. -/
theorem c7_counterexample :
    ytd (ytd ctx2025Feb) ≠ ytd ctx2025Feb := by
  with_unfolding_all decide

/-- C7 amended: for every context with a non-null `year` and a scalar
numeric `month`, a single `ytd` application replaces `month` with
`{lte: currentMonth}`, but applying `ytd` twice does not reproduce it:
the second application overwrites `month` with `{lte: NaN}` (JS
`Number` of a plain object is NaN), leaving all other keys as after one
application — so idempotence fails on the `month` field. -/
theorem c7_amended_ytd_not_idempotent :
    ∀ (ctx : FilterContext) (q : Rat),
      (getCtxField ctx "year").isLooseNull = false →
      getCtxField ctx "month" = .prim (.vNum q) →
      getCtxField (ytd ctx) "month" = .range { lte := some (.vNum q) } ∧
      ytd (ytd ctx) = objSet (ytd ctx) "month" (.range { lte := some .vNaN }) := by
  intro ctx q hy hm
  have h1 : ytd ctx = objSet ctx "month" (.range { lte := some (.vNum q) }) := by
    rw [ytd_step ctx hy (by rw [hm]; rfl), hm]
    rfl
  have hm1 : getCtxField (ytd ctx) "month" = .range { lte := some (.vNum q) } := by
    rw [h1]
    exact getCtxField_objSet_self ctx "month" _
  refine ⟨hm1, ?_⟩
  have hy1 : (getCtxField (ytd ctx) "year").isLooseNull = false := by
    rw [h1, getCtxField_objSet_ne ctx "month" "year" _ (by decide)]
    exact hy
  rw [ytd_step (ytd ctx) hy1 (by rw [hm1]; rfl), hm1]
  rfl

/-- C7 witness: the amended statement at `{year: 2025, month: 2}`. -/
theorem c7_witness :
    getCtxField (ytd ctx2025Feb) "month" =
      .range { lte := some (.vNum 2) } ∧
    ytd (ytd ctx2025Feb) =
      objSet (ytd ctx2025Feb) "month" (.range { lte := some .vNaN }) :=
  c7_amended_ytd_not_idempotent ctx2025Feb 2 (by with_unfolding_all decide)
    (by with_unfolding_all decide)

/-- C8: a simple metric over a measure with `sum`, `count` or `distinct`
aggregation (and no custom aggregation function) evaluates to 0 — not
null and not an error — whenever the context filters the measure's table
down to no rows under the effective grain. -/
theorem c8_empty_rows_aggregate_zero :
    ∀ (fuel : Nat) (m : String) (db : InMemoryDb) (reg : MetricRegistry)
      (ctx : FilterContext) (tr : ContextTransformsRegistry) (cache : Cache)
      (mreg : MeasureRegistry) (nm : String) (ds fmt : Option String)
      (measure : String) (grain : Option (List String))
      (measureDef : MeasureDefinition) (rows : List Row),
      cacheLookup (cacheKey m ctx) cache = none →
      List.lookup m reg = some (.simple nm ds fmt measure grain) →
      List.lookup measure mreg = some measureDef →
      List.lookup measureDef.table db.tables = some rows →
      measureDef.expression = none →
      (measureDef.aggregation = .sum ∨ measureDef.aggregation = .count ∨
        measureDef.aggregation = .distinct) →
      applyContextToFact rows ctx (grain.getD (firstRowKeys rows)) = [] →
      evaluateMetric (fuel + 1) m db reg ctx tr cache (some mreg) =
        .ok (some (.val 0),
          cacheSet (cacheKey m ctx) (some (.val 0)) cache) := by
  intro fuel m db reg ctx tr cache mreg nm ds fmt measure grain measureDef rows
    hcache hreg hmeas htab hexpr hagg hempty
  conv_lhs => unfold evaluateMetric
  simp only [hcache, hreg, hmeas, htab, hexpr, hempty]
  rcases hagg with h | h | h <;>
    simp [h, applyAggregation, seqSum, seqCount, seqDistinctValues]

/-- C8 witness: `revenue` (sum of `sales.amount`) under `{year: 2099}`
matches no demo rows and evaluates to 0. -/
theorem c8_witness :
    evaluateMetric 1 "revenue" demoDb demoMetrics
      [("year", .prim (.vNum 2099))] demoTransforms [] (some demoMeasures) =
      .ok (some (.val 0),
        cacheSet (cacheKey "revenue" [("year", .prim (.vNum 2099))])
          (some (.val 0)) []) := by
  exact c8_empty_rows_aggregate_zero 0 "revenue" demoDb demoMetrics
    [("year", .prim (.vNum 2099))] demoTransforms [] demoMeasures
    _ _ _ _ _ _ _
    (by with_unfolding_all rfl) (by with_unfolding_all rfl)
    (by with_unfolding_all rfl) (by with_unfolding_all rfl)
    (by with_unfolding_all rfl) (Or.inl (by with_unfolding_all rfl))
    (by with_unfolding_all decide)

/-- C9: `formatValue` returns null for null/undefined/NaN input under any
tag; otherwise `currency` prefixes `$` with two decimal places, `integer`
rounds to zero decimal places, `percent` suffixes `%` with two decimal
places, and any unrecognized or absent tag yields the plain numeric
string; being a total function, it never throws. -/
theorem c9_formatValue_contract :
    (∀ fmt, formatValue none fmt = none) ∧
    (∀ fmt, formatValue (some .nan) fmt = none) ∧
    (∀ q : Rat, formatValue (some (.val q)) (some "currency") =
      some ("$" ++ toFixed 2 q)) ∧
    (∀ q : Rat, formatValue (some (.val q)) (some "integer") =
      some (toFixed 0 q)) ∧
    (∀ q : Rat, formatValue (some (.val q)) (some "percent") =
      some (toFixed 2 q ++ "%")) ∧
    (∀ (q : Rat) (fmt : Option String),
      fmt ∉ ([some "currency", some "integer", some "percent"] :
        List (Option String)) →
      formatValue (some (.val q)) fmt = some (ratDecimalString q)) := by
  refine ⟨fun _ => rfl, fun _ => rfl, fun _ => rfl, fun _ => rfl, fun _ => rfl, ?_⟩
  intro q fmt hf
  simp only [formatValue]
  split
  all_goals simp_all

/-- C9 witness: an unrecognized tag yields the plain numeric string. -/
theorem c9_witness :
    formatValue (some (.val (3/2))) (some "plain") =
      some (ratDecimalString (3/2)) :=
  c9_formatValue_contract.2.2.2.2.2 (3/2) (some "plain") (by decide)

/-- C10: when a requested attribute carries a derivation expression,
`runQuery` invokes it on a synthetic row holding only the attribute's
source column mapped to the group's raw key value, so every other field
the expression reads is undefined; concretely, over a table whose rows
also carry a field `b`, an attribute expression reading `b` observes
`undefined` and the query output records it. -/
theorem c10_synthetic_row :
    (∀ (attrDef : AttributeDefinition) (keyObj : Row) (e : Row → Value),
       attrDef.expression = some e →
       attributeOutputValue attrDef keyObj =
         e [(attrDef.column, getField keyObj attrDef.column)]) ∧
    (∀ (attrDef : AttributeDefinition) (keyObj : Row) (k : String),
       k ≠ attrDef.column →
       getField [(attrDef.column, getField keyObj attrDef.column)] k =
         .vUndefined) ∧
    runQuery 1 synthDb [] synthAttrs [] [] []
      { attributes := ["x"], metrics := [] } = .ok [[("x", Value.vUndefined)]] := by
  refine ⟨?_, ?_, by with_unfolding_all rfl⟩
  · intro attrDef keyObj e he
    simp [attributeOutputValue, he]
  · intro attrDef keyObj k hk
    have hb : (k == attrDef.column) = false := by
      simp [beq_eq_false_iff_ne, hk]
    simp [getField, List.lookup_cons, hb]

/-- C10 witness: the synthetic-row characterization at the one-row demo
table — the expression receives `{a: 1}` and reading `b` on it gives
`undefined`. -/
theorem c10_witness :
    attributeOutputValue synthAttrDef [("a", .vNum 1), ("b", .vNum 5)] =
      getField [("a", getField [("a", .vNum 1), ("b", .vNum 5)] "a")] "b" ∧
    getField
      [(synthAttrDef.column,
        getField [("a", .vNum 1)] synthAttrDef.column)] "b" = .vUndefined :=
  ⟨c10_synthetic_row.1 synthAttrDef [("a", .vNum 1), ("b", .vNum 5)]
     (fun r => getField r "b") rfl,
   c10_synthetic_row.2.1 synthAttrDef [("a", .vNum 1)] "b"
     (by with_unfolding_all decide)⟩
